import Mathlib

/-!
Shallow embedding of the coverage/quality assessment core and the iterative
improvement control loop of the agent-based testing framework
(src/src/models.py, src/src/agents.py, src/src/framework.py).

Conventions of the embedding:
* Python `set` becomes `Finset String`; Python `list` becomes `List`.
* Python floats become `ℚ` (all arithmetic in the core is exact ratios of
  small integers, so rationals model it faithfully).
* The external LLM oracle (`self.llm.invoke`) is modelled as an explicit
  function parameter; a failing invocation (an exception in the Python
  `try` block) is modelled by the oracle returning `none`.
* Python string operations (`strip`, `lower`, `split`, `find`, `count`,
  `startswith`) are re-implemented over `List Char`; `strip`/whitespace is
  restricted to the ASCII whitespace characters recognised by
  `Char.isWhitespace`, and `float()` is modelled on plain decimal literals.
-/

/-! ## Data model (src/src/models.py) -/

/-- Types of code units (models.py `CodeType`). -/
inductive CodeType
  | module
  | cls
  | function
  | method
deriving DecidableEq, Repr

/-- Types of test cases (models.py `TestType`). -/
inductive TestType
  | unit
  | integration
  | functional
  | mutation
deriving DecidableEq, Repr

/-- A code unit (models.py `CodeUnit`); the `ast_node`, `complexity` and
`dependencies` fields are never read by the assessed core and are omitted. -/
structure CodeUnit where
  name : String
  type : CodeType
  file_path : String
  line_start : Nat
  line_end : Nat
  docstring : Option String := none
  signature : Option String := none
deriving DecidableEq, Repr

/-- A test case (models.py `TestCase`). `tested_units` is a Python set of
unit names, modelled as a `Finset String`. -/
structure TestCase where
  name : String
  type : TestType
  file_path : String
  line_start : Nat
  line_end : Nat
  tested_units : Finset String := ∅
  assertions : Nat := 0
  mocks : Nat := 0
  complexity : Nat := 0
  docstring : Option String := none
  source_code : Option String := none
deriving DecidableEq

/-- Quality metrics (models.py `QualityMetrics`), with the dataclass
defaults; `assess_quality` fills every field except `mutation_score`. -/
structure QualityMetrics where
  coverage_percentage : ℚ := 0
  mutation_score : ℚ := 0
  assertion_density : ℚ := 0
  test_clarity_score : ℚ := 0
  complexity_score : ℚ := 0
  mock_coverage : ℚ := 0
  total_tests : Nat := 0
  total_assertions : Nat := 0
  total_mocks : Nat := 0
  uncovered_units : Finset String := ∅
  low_quality_tests : List String := []
deriving DecidableEq

/-- The dictionary returned by `TestJudgeAgent.judge_test` /
`_parse_judgment_response`: keys `overall_score`, `criterion_scores`
(a Python dict, modelled as an insertion-ordered association list) and
`feedback`.  The error dictionary of `judge_test` carries no
`criterion_scores` key, modelled as the empty list. -/
structure Judgment where
  overall_score : ℚ
  criterion_scores : List (String × ℚ)
  feedback : List String
deriving DecidableEq

/-! ## Python string primitives, re-implemented over `List Char` -/

/-- ASCII-whitespace strip of both ends (Python `str.strip()`). -/
def stripChars (l : List Char) : List Char :=
  ((l.dropWhile Char.isWhitespace).reverse.dropWhile Char.isWhitespace).reverse

/-- Python `s.strip()`. -/
def pyStrip (s : String) : String := String.mk (stripChars s.data)

/-- Python `s.lower()` (ASCII). -/
def pyLower (s : String) : String := String.mk (s.data.map Char.toLower)

/-- Python `s.startswith(pre)`. -/
def pyStartsWith (s pre : String) : Bool := pre.data.isPrefixOf s.data

/-- Python `s.split(sep)` for a single-character separator: auxiliary over
the remaining characters and the accumulator of the current piece. -/
def splitOnCharAux (sep : Char) : List Char → List Char → List String
  | [], acc => [String.mk acc.reverse]
  | c :: cs, acc =>
    if c = sep then String.mk acc.reverse :: splitOnCharAux sep cs []
    else splitOnCharAux sep cs (c :: acc)

/-- Python `s.split(sep)` for a one-character separator. -/
def pySplitChar (s : String) (sep : Char) : List String :=
  splitOnCharAux sep s.data []

/-- First whitespace-delimited token of a string: Python
`s.split()[0]`, with `none` for the `IndexError` of an empty split. -/
def firstWsToken (s : String) : Option String :=
  let rest := s.data.dropWhile Char.isWhitespace
  let tok := rest.takeWhile (fun c => !c.isWhitespace)
  if tok.isEmpty then none else some (String.mk tok)

/-- Smallest index `i ≥ start` at which `needle` occurs in `hay`
(Python `hay.find(needle, start)`, with `none` for `-1`). -/
def findFrom (hay needle : List Char) (start : Nat) : Option Nat :=
  (List.range (hay.length + 1)).find?
    (fun i => decide (start ≤ i) && needle.isPrefixOf (hay.drop i))

/-- Python `needle in hay` substring test. -/
def containsSub (hay needle : String) : Bool :=
  (findFrom hay.data needle.data 0).isSome

/-- Count of non-overlapping occurrences of `needle`, scanning left to
right (Python `hay.count(needle)` for non-empty `needle`). -/
def countSub (needle : List Char) : List Char → Nat
  | [] => 0
  | c :: cs =>
    if needle.isPrefixOf (c :: cs) then
      1 + countSub needle (cs.drop (needle.length - 1))
    else countSub needle cs
termination_by l => l.length
decreasing_by
  · simp only [List.length_drop, List.length_cons]
    omega
  · simp

/-- Numeric value of a digit string. -/
def natFromDigits (l : List Char) : Nat :=
  l.foldl (fun n c => n * 10 + (c.toNat - 48)) 0

/-- Model of Python `float(s)` restricted to plain decimal literals with an
optional sign and fractional part (the only shapes the judged responses
are expected to carry); any other input is a `ValueError`, i.e. `none`. -/
def parseDecimal (s : String) : Option ℚ :=
  let t := stripChars s.data
  let sgn : ℚ := match t with
    | '-' :: _ => -1
    | _ => 1
  let body : List Char := match t with
    | '-' :: r => r
    | '+' :: r => r
    | r => r
  let intPart := body.takeWhile Char.isDigit
  let rest := body.dropWhile Char.isDigit
  match rest with
  | [] =>
    if intPart.isEmpty then none
    else some (sgn * (natFromDigits intPart : ℚ))
  | '.' :: fr =>
    let fracPart := fr.takeWhile Char.isDigit
    if !(fr.dropWhile Char.isDigit).isEmpty then none
    else if intPart.isEmpty && fracPart.isEmpty then none
    else some (sgn * ((natFromDigits intPart : ℚ) +
      (natFromDigits fracPart : ℚ) / (10 : ℚ) ^ fracPart.length))
  | _ => none

/-! ## Coverage & quality assessor (src/src/agents.py, TestAssessorAgent) -/

/-- Union of every test's `tested_units`, accumulated exactly as the
Python loop `for test in test_cases: covered_units.update(test.tested_units)`
(agents.py lines 267-269). -/
def coveredUnits (test_cases : List TestCase) : Finset String :=
  test_cases.foldl (fun acc t => acc ∪ t.tested_units) ∅

/-- The set comprehension `\x7bunit.name for unit in code_units\x7d`. -/
def unitNames (code_units : List CodeUnit) : Finset String :=
  code_units.foldl (fun acc u => insert u.name acc) ∅

/-- One test's contribution to the clarity total (the body of the sampling
loop of `_assess_test_clarity`, agents.py lines 304-328): a test with a
falsy `source_code` contributes nothing; otherwise the clamped oracle
rating, or the default 5.0 when the oracle call or the float parse raises. -/
def clarityContribution (oracle : TestCase → Option ℚ) (test : TestCase) : ℚ :=
  if test.source_code.getD ("") ≠ "" then
    match oracle test with
    | some score => min (max score 0) 10
    | none => 5
  else 0

/-- `TestAssessorAgent._assess_test_clarity` (agents.py lines 298-330):
loop over the first ten tests of the list, accumulate clarity
contributions, divide by `min(len(test_cases), 10)`; 0.0 with no tests. -/
def assess_test_clarity (oracle : TestCase → Option ℚ)
    (test_cases : List TestCase) : ℚ :=
  if test_cases = [] then 0
  else
    ((test_cases.take 10).foldl
        (fun total test => total + clarityContribution oracle test) 0) /
      ((min test_cases.length 10 : Nat) : ℚ)

/-- The issue list built for one test by
`TestAssessorAgent._identify_low_quality_tests` (agents.py lines 337-346). -/
def testIssues (test : TestCase) : List String :=
  (if test.assertions = 0 then ["no assertions"] else []) ++
  (if 5 < test.complexity then ["high complexity"] else []) ++
  (if test.docstring.getD ("") = "" then ["no documentation"] else []) ++
  (if test.mocks = 0 ∧ 0 < test.assertions then ["no mocking"] else [])

/-- `TestAssessorAgent._identify_low_quality_tests` (agents.py lines
332-351): tests with a non-empty issue list are reported as
`"name (issue, issue, ...)"`, in list order. -/
def identify_low_quality_tests (test_cases : List TestCase) : List String :=
  test_cases.filterMap (fun test =>
    if testIssues test = [] then none
    else some (test.name ++ " (" ++ String.intercalate (", ") (testIssues test) ++ ")"))

/-- `TestAssessorAgent.assess_quality` (agents.py lines 262-296).
The LLM used for clarity scoring is the explicit `clarity_oracle`
parameter; `mutation_score` keeps its dataclass default of 0. -/
def assess_quality (clarity_oracle : TestCase → Option ℚ)
    (code_units : List CodeUnit) (test_cases : List TestCase) : QualityMetrics :=
  { coverage_percentage :=
      if code_units = [] then 0
      else ((coveredUnits test_cases).card : ℚ) / (code_units.length : ℚ) * 100
    uncovered_units := unitNames code_units \ coveredUnits test_cases
    total_assertions := (test_cases.map TestCase.assertions).sum
    assertion_density :=
      if test_cases = [] then 0
      else ((test_cases.map TestCase.assertions).sum : ℚ) / (test_cases.length : ℚ)
    total_mocks := (test_cases.map TestCase.mocks).sum
    mock_coverage :=
      if test_cases = [] then 0
      else ((test_cases.map TestCase.mocks).sum : ℚ) / (test_cases.length : ℚ)
    complexity_score :=
      if test_cases = [] then 0
      else ((test_cases.map TestCase.complexity).sum : ℚ) / (test_cases.length : ℚ)
    test_clarity_score := assess_test_clarity clarity_oracle test_cases
    low_quality_tests := identify_low_quality_tests test_cases
    total_tests := test_cases.length
    mutation_score := 0 }

/-! ## Candidate generator (src/src/agents.py, TestGeneratorAgent) -/

/-- `TestGeneratorAgent._extract_test_code` (agents.py lines 426-438):
fenced-block extraction with Python slice semantics — a failed
`find("```", start)` yields `-1`, and `response[start:-1]` stops one
character before the end of the string. -/
def extract_test_code (response : String) : String :=
  let r := response.data
  match findFrom r ("```python".data) 0 with
  | some p =>
    let start := p + 9
    let stop : Nat :=
      match findFrom r ("```".data) start with
      | some e => e
      | none => r.length - 1
    pyStrip (String.mk ((r.take stop).drop start))
  | none =>
    match findFrom r ("```".data) 0 with
    | some p =>
      let start := p + 3
      let stop : Nat :=
        match findFrom r ("```".data) start with
        | some e => e
        | none => r.length - 1
      pyStrip (String.mk ((r.take stop).drop start))
    | none => pyStrip response

/-- `TestGeneratorAgent._count_assertions_in_code` (agents.py 440-442). -/
def count_assertions_in_code (code : String) : Nat :=
  countSub ("assert ".data) code.data + countSub (".assert".data) code.data

/-- `TestGeneratorAgent._count_mocks_in_code` (agents.py 444-446). -/
def count_mocks_in_code (code : String) : Nat :=
  countSub ("mock".data) code.data + countSub ("Mock".data) code.data +
    countSub ("patch".data) code.data

/-- `TestGeneratorAgent.generate_tests` (agents.py lines 370-395).  The
oracle takes the unit and existing tests (the ingredients of the prompt)
and returns the response content, or `none` when the invocation raises;
the `except` branch then returns the empty list. -/
def generate_tests (oracle : CodeUnit → List TestCase → Option String)
    (code_unit : CodeUnit) (existing_tests : List TestCase) : List TestCase :=
  match oracle code_unit existing_tests with
  | none => []
  | some content =>
    let generated_code := extract_test_code content
    if generated_code ≠ "" then
      [{ name := "test_" ++ code_unit.name
         type := TestType.unit
         file_path := "tests/test_" ++ code_unit.name ++ ".py"
         line_start := 1
         line_end := (pySplitChar generated_code ('\n')).length
         tested_units := {code_unit.name}
         source_code := some generated_code
         assertions := count_assertions_in_code generated_code
         mocks := count_mocks_in_code generated_code }]
    else []

/-! ## Candidate judge (src/src/agents.py, TestJudgeAgent) -/

/-- The six criterion keywords of `_parse_judgment_response`
(agents.py line 506). -/
def criteria : List String :=
  ["coverage", "variety", "assertion", "mocking", "readability", "documentation"]

/-- Whether a response line is treated as a potential score line: it
contains one of the six criterion keywords, case-insensitively
(agents.py line 506). -/
def isScoreCandidate (line : String) : Bool :=
  criteria.any (fun c => containsSub (pyLower line) c)

/-- Python dict assignment `scores[criterion] = score` on an
insertion-ordered association list: overwrite in place, else append. -/
def dictInsert (d : List (String × ℚ)) (k : String) (v : ℚ) : List (String × ℚ) :=
  if d.any (fun p => p.1 == k) then
    d.map (fun p => if p.1 = k then (k, v) else p)
  else d ++ [(k, v)]

/-- The `try` block of the score branch of `_parse_judgment_response`
(agents.py lines 507-515): split on `:`, need at least two parts, parse
the first whitespace token after the colon as a float; any failure is
swallowed (`except: pass`) and leaves the scores dict unchanged. -/
def scoreLineUpdate (d : List (String × ℚ)) (line : String) : List (String × ℚ) :=
  match pySplitChar line (':') with
  | p0 :: p1 :: _ =>
    match firstWsToken (pyStrip p1) with
    | some tok =>
      match parseDecimal tok with
      | some score => dictInsert d (pyStrip p0) score
      | none => d
    | none => d
  | _ => d

/-- The per-line body of `_parse_judgment_response` (agents.py lines
505-517): keyword lines only ever touch the scores dict; other non-blank
lines not starting with `#` are appended (stripped) to the feedback. -/
def judgeLineStep (acc : List (String × ℚ) × List String) (line : String) :
    List (String × ℚ) × List String :=
  if isScoreCandidate line then
    (scoreLineUpdate acc.1 line, acc.2)
  else if pyStrip line ≠ "" ∧ ¬ pyStartsWith line ("#") then
    (acc.1, acc.2 ++ [pyStrip line])
  else acc

/-- `TestJudgeAgent._parse_judgment_response` (agents.py lines 498-525). -/
def parse_judgment_response (response : String) : Judgment :=
  let st := (pySplitChar response ('\n')).foldl judgeLineStep ([], [])
  { overall_score :=
      if st.1 = [] then 5
      else ((st.1.map Prod.snd).sum) / (st.1.length : ℚ)
    criterion_scores := st.1
    feedback := st.2 }

/-- `TestJudgeAgent.judge_test` (agents.py lines 465-496): the oracle
takes the candidate and its unit (the prompt ingredients); a raising
invocation returns the neutral error judgment. -/
def judge_test (oracle : TestCase → CodeUnit → Option String)
    (test_case : TestCase) (code_unit : CodeUnit) : Judgment :=
  match oracle test_case code_unit with
  | some content => parse_judgment_response content
  | none =>
    { overall_score := 5
      criterion_scores := []
      feedback := ["Error in evaluation"] }

/-! ## Improvement loop (src/src/framework.py, TestingFramework) -/

/-- The framework state mutated by `_improve_tests_iteratively`: the
working test set `self.test_cases` and the accumulator
`self.generated_tests`. -/
structure LoopState where
  test_cases : List TestCase
  generated_tests : List TestCase
deriving DecidableEq

/-- `TestingFramework._find_code_unit` (framework.py lines 224-229):
first unit with the requested name, or `None`. -/
def find_code_unit (code_units : List CodeUnit) (unit_name : String) :
    Option CodeUnit :=
  code_units.find? (fun u => u.name == unit_name)

/-- `TestingFramework._identify_uncovered_units` (framework.py lines
193-200). -/
def identify_uncovered_units (code_units : List CodeUnit)
    (test_cases : List TestCase) : Finset String :=
  unitNames code_units \ coveredUnits test_cases

/-- `TestingFramework._identify_low_quality_units` (framework.py lines
202-222): group the working tests by each unit they cover; a unit is
low-quality when its tests carry fewer than 3 assertions or fewer than 1
mock in total. -/
def identify_low_quality_units (test_cases : List TestCase) : Finset String :=
  (coveredUnits test_cases).filter (fun u =>
    ((test_cases.filter (fun t => decide (u ∈ t.tested_units))).map
        TestCase.assertions).sum < 3 ∨
    ((test_cases.filter (fun t => decide (u ∈ t.tested_units))).map
        TestCase.mocks).sum < 1)

/-- `target_units = list(uncovered_units) + list(low_quality_units)`
(framework.py line 156).  Python set-iteration order is unspecified; it is
modelled deterministically by listing each set in sorted order (no claim
in scope depends on the order). -/
def targetList (code_units : List CodeUnit) (test_cases : List TestCase) :
    List String :=
  (identify_uncovered_units code_units test_cases).sort (· ≤ ·) ++
    (identify_low_quality_units test_cases).sort (· ≤ ·)

/-- The accept-or-reject step for one judged candidate (framework.py lines
177-187): accept — save, append to the working set and to
`generated_tests`, set `improvements_made` — exactly when the judgment's
`overall_score` is at least 7.0.  The file write of `_save_test_case` is
an external sink and not part of the state. -/
def judgeStep (judge : TestCase → CodeUnit → Judgment) (unit : CodeUnit)
    (acc : LoopState × Bool) (test : TestCase) : LoopState × Bool :=
  if 7 ≤ (judge test unit).overall_score then
    (⟨acc.1.test_cases ++ [test], acc.1.generated_tests ++ [test]⟩, true)
  else acc

/-- Processing of one target name (framework.py lines 166-187): look the
unit up, skip silently when missing, otherwise generate candidates from
the current working set and judge each in turn. -/
def processTarget (gen : CodeUnit → List TestCase → List TestCase)
    (judge : TestCase → CodeUnit → Judgment) (code_units : List CodeUnit)
    (acc : LoopState × Bool) (unit_name : String) : LoopState × Bool :=
  match find_code_unit code_units unit_name with
  | none => acc
  | some unit => (gen unit acc.1.test_cases).foldl (judgeStep judge unit) acc

/-- One iteration body of the loop (framework.py lines 150-187): compute
the targets, process at most the first five, starting from
`improvements_made = False`. -/
def iterStep (gen : CodeUnit → List TestCase → List TestCase)
    (judge : TestCase → CodeUnit → Judgment) (code_units : List CodeUnit)
    (s : LoopState) : LoopState × Bool :=
  ((targetList code_units s.test_cases).take 5).foldl
    (processTarget gen judge code_units) (s, false)

/-- `TestingFramework._improve_tests_iteratively` (framework.py lines
147-191), with the generator and judge agents as function parameters.
The returned number counts the iterations that processed targets: the
`break` on an empty target list contributes 0, the `break` on an
improvement-free iteration contributes that final iteration. -/
def improve_tests_iteratively (gen : CodeUnit → List TestCase → List TestCase)
    (judge : TestCase → CodeUnit → Judgment) (code_units : List CodeUnit) :
    Nat → LoopState → LoopState × Nat
  | 0, s => (s, 0)
  | n + 1, s =>
    if targetList code_units s.test_cases = [] then (s, 0)
    else if (iterStep gen judge code_units s).2 then
      ((improve_tests_iteratively gen judge code_units n
          (iterStep gen judge code_units s).1).1,
       (improve_tests_iteratively gen judge code_units n
          (iterStep gen judge code_units s).1).2 + 1)
    else ((iterStep gen judge code_units s).1, 1)

/-- State reached after `k` unconditional iteration bodies; used to state
the exact-budget property of the loop. -/
def iterates (gen : CodeUnit → List TestCase → List TestCase)
    (judge : TestCase → CodeUnit → Judgment) (code_units : List CodeUnit) :
    Nat → LoopState → LoopState
  | 0, s => s
  | k + 1, s => iterates gen judge code_units k (iterStep gen judge code_units s).1

/-! ## Helper lemmas -/

/-- Membership in the covered-units fold, for any accumulator. -/
theorem mem_foldl_union (l : List TestCase) :
    ∀ (init : Finset String) (x : String),
      x ∈ l.foldl (fun acc t => acc ∪ t.tested_units) init ↔
        x ∈ init ∨ ∃ t ∈ l, x ∈ t.tested_units := by
  induction l with
  | nil => simp
  | cons a l ih =>
    intro init x
    simp only [List.foldl_cons, ih, Finset.mem_union, List.mem_cons]
    constructor
    · rintro ((h | h) | ⟨t, ht, hx⟩)
      · exact Or.inl h
      · exact Or.inr ⟨a, Or.inl rfl, h⟩
      · exact Or.inr ⟨t, Or.inr ht, hx⟩
    · rintro (h | ⟨t, (rfl | ht), hx⟩)
      · exact Or.inl (Or.inl h)
      · exact Or.inl (Or.inr hx)
      · exact Or.inr ⟨t, ht, hx⟩

/-- A name is covered exactly when some test's `tested_units` holds it. -/
theorem mem_coveredUnits (l : List TestCase) (x : String) :
    x ∈ coveredUnits l ↔ ∃ t ∈ l, x ∈ t.tested_units := by
  simp [coveredUnits, mem_foldl_union]

/-- Membership in the unit-name fold, for any accumulator. -/
theorem mem_foldl_insert (l : List CodeUnit) :
    ∀ (init : Finset String) (x : String),
      x ∈ l.foldl (fun acc u => insert u.name acc) init ↔
        x ∈ init ∨ ∃ u ∈ l, u.name = x := by
  induction l with
  | nil => simp
  | cons a l ih =>
    intro init x
    simp only [List.foldl_cons, ih, Finset.mem_insert, List.mem_cons]
    constructor
    · rintro ((h | h) | ⟨u, hu, hx⟩)
      · exact Or.inr ⟨a, Or.inl rfl, h.symm⟩
      · exact Or.inl h
      · exact Or.inr ⟨u, Or.inr hu, hx⟩
    · rintro (h | ⟨u, (rfl | hu), hx⟩)
      · exact Or.inl (Or.inr h)
      · exact Or.inl (Or.inl hx.symm)
      · exact Or.inr ⟨u, hu, hx⟩

/-- A name is in `unitNames` exactly when some unit carries it. -/
theorem mem_unitNames (l : List CodeUnit) (x : String) :
    x ∈ unitNames l ↔ ∃ u ∈ l, u.name = x := by
  simp [unitNames, mem_foldl_insert]

/-- The insert fold grows the accumulator's size by at most the list length. -/
theorem card_foldl_insert_le (l : List CodeUnit) :
    ∀ init : Finset String,
      (l.foldl (fun acc u => insert u.name acc) init).card ≤ init.card + l.length := by
  induction l with
  | nil => simp
  | cons a l ih =>
    intro init
    calc (List.foldl (fun acc u => insert u.name acc) (insert a.name init) l).card
        ≤ (insert a.name init).card + l.length := ih _
      _ ≤ init.card + 1 + l.length := by
          exact Nat.add_le_add_right (Finset.card_insert_le _ _) _
      _ = init.card + (a :: l).length := by simp; omega

/-- There are at most as many distinct unit names as units. -/
theorem unitNames_card_le (U : List CodeUnit) : (unitNames U).card ≤ U.length := by
  simpa using card_foldl_insert_le U ∅

/-- Membership in the right fold of unions (the specification-side
formulation of the covered set). -/
theorem mem_foldr_union (l : List TestCase) (x : String) :
    x ∈ l.foldr (fun t acc => t.tested_units ∪ acc) ∅ ↔
      ∃ t ∈ l, x ∈ t.tested_units := by
  induction l with
  | nil => simp
  | cons a l ih => simp [ih]

/-- Clarity fold as a mapped sum. -/
theorem foldl_clarity_sum (oracle : TestCase → Option ℚ) (l : List TestCase) :
    ∀ init : ℚ,
      l.foldl (fun total test => total + clarityContribution oracle test) init =
        init + (l.map (clarityContribution oracle)).sum := by
  induction l with
  | nil => simp
  | cons a l ih => intro init; simp [ih, add_assoc]

/-! ## Concrete sample data for counterexamples and witnesses -/

/-- A single code unit named `a`. -/
def unitA : CodeUnit :=
  { name := "a", type := CodeType.function, file_path := "m.py",
    line_start := 1, line_end := 2 }

/-- A test whose `tested_units` name only identifiers outside the catalog. -/
def testOutside : TestCase :=
  { name := "t", type := TestType.unit, file_path := "t.py",
    line_start := 1, line_end := 2, tested_units := {"b", "c"} }

/-- A test covering exactly the unit `a`. -/
def testCoversA : TestCase :=
  { name := "ta", type := TestType.unit, file_path := "t.py",
    line_start := 1, line_end := 2, tested_units := {"a"} }

/-- A test with no `source_code` (and no assertions, mocks or docstring). -/
def testNoSource : TestCase :=
  { name := "t1", type := TestType.unit, file_path := "t.py",
    line_start := 1, line_end := 2 }

/-- A test with a non-empty `source_code`. -/
def testWithSource : TestCase :=
  { name := "t2", type := TestType.unit, file_path := "t.py",
    line_start := 3, line_end := 4, source_code := some "assert True" }

/-- A test with five assertions and no mocks. -/
def testFiveAsserts : TestCase :=
  { name := "t5", type := TestType.unit, file_path := "t.py",
    line_start := 5, line_end := 6, assertions := 5, mocks := 0 }

/-- A test with assertions, a mock, low complexity and a docstring. -/
def testClean : TestCase :=
  { name := "tc", type := TestType.unit, file_path := "t.py",
    line_start := 7, line_end := 8, assertions := 5, mocks := 1,
    complexity := 2, docstring := some "x" }

/-- A clarity oracle whose every invocation raises. -/
def noneOracle : TestCase → Option ℚ := fun _ => none

/-- A clarity oracle that rates every sampled test 10. -/
def tenOracle : TestCase → Option ℚ := fun _ => some 10

/-! ## C2 — uncovered units are a set difference -/

/-- C2: for every unit list `U` and test list `T`, the `uncovered_units`
field of `assess_quality U T` equals the set of names of units in `U`
minus the union over all tests in `T` of their `tested_units`, and the
loop helper `_identify_uncovered_units` computes the same set
difference. -/
theorem uncovered_units_set_difference (o : TestCase → Option ℚ)
    (U : List CodeUnit) (T : List TestCase) :
    (assess_quality o U T).uncovered_units =
      (U.map CodeUnit.name).toFinset \
        T.foldr (fun t acc => t.tested_units ∪ acc) ∅
  ∧ identify_uncovered_units U T =
      (U.map CodeUnit.name).toFinset \
        T.foldr (fun t acc => t.tested_units ∪ acc) ∅ := by
  have h : unitNames U \ coveredUnits T =
      (U.map CodeUnit.name).toFinset \
        T.foldr (fun t acc => t.tested_units ∪ acc) ∅ := by
    ext x
    simp [Finset.mem_sdiff, mem_unitNames, mem_foldr_union, mem_coveredUnits,
      List.mem_map]
  exact ⟨h, h⟩

/-! ## C1 — coverage percentage -/

/-- C1 counterexample: with `U = [a]` and a single test whose
`tested_units` are `{b, c}` (identifiers outside `U`), the computed
coverage is 200: it exceeds 100 and is nonzero although no test covers
any unit of `U` (every unit of `U` is uncovered), refuting both the
`[0,100]` bound and the equals-0 characterisation of the claim. -/
theorem coverage_percentage_counterexample :
    (assess_quality noneOracle [unitA] [testOutside]).coverage_percentage = 200
  ∧ ¬ (assess_quality noneOracle [unitA] [testOutside]).coverage_percentage ≤ 100
  ∧ (assess_quality noneOracle [unitA] [testOutside]).uncovered_units = {"a"} := by
  have hcard : (coveredUnits [testOutside]).card = 2 := by decide
  have h : (assess_quality noneOracle [unitA] [testOutside]).coverage_percentage =
      ((coveredUnits [testOutside]).card : ℚ) / (([unitA].length : Nat) : ℚ) * 100 := by
    simp [assess_quality]
  rw [h, hcard]
  refine ⟨by norm_num, by norm_num, by decide⟩

/-- C1 amended: the code divides the size of the raw union of
`tested_units` (not intersected with `U`) by `|U|`.  Hence
`coverage_percentage` is nonnegative; it equals 0 exactly when `U` is
empty or the union of all `tested_units` is empty; and it is at most 100
whenever that union only names units of `U` — without that proviso it can
exceed 100, as the counterexample shows. -/
theorem coverage_percentage_amended (o : TestCase → Option ℚ)
    (U : List CodeUnit) (T : List TestCase) :
    0 ≤ (assess_quality o U T).coverage_percentage
  ∧ ((assess_quality o U T).coverage_percentage = 0 ↔
      U = [] ∨ coveredUnits T = ∅)
  ∧ (coveredUnits T ⊆ unitNames U →
      (assess_quality o U T).coverage_percentage ≤ 100) := by
  have hcov : (assess_quality o U T).coverage_percentage =
      if U = [] then 0
      else ((coveredUnits T).card : ℚ) / (U.length : ℚ) * 100 := rfl
  by_cases hU : U = []
  · rw [hcov, if_pos hU]
    exact ⟨le_refl 0, by simp [hU], fun _ => by norm_num⟩
  · rw [hcov, if_neg hU]
    have hn : 0 < (U.length : ℚ) := by
      have : U.length ≠ 0 := by
        simpa [List.length_eq_zero] using hU
      exact_mod_cast Nat.pos_of_ne_zero this
    refine ⟨?_, ?_, ?_⟩
    · positivity
    · constructor
      · intro h
        rcases mul_eq_zero.mp h with h | h
        · rcases div_eq_zero_iff.mp h with h | h
          · exact Or.inr (Finset.card_eq_zero.mp (Nat.cast_eq_zero.mp h))
          · exact absurd h (ne_of_gt hn)
        · norm_num at h
      · rintro (h | h)
        · exact absurd h hU
        · simp [h]
    · intro hsub
      have hc : ((coveredUnits T).card : ℚ) ≤ (U.length : ℚ) := by
        exact_mod_cast le_trans (Finset.card_le_card hsub) (unitNames_card_le U)
      calc ((coveredUnits T).card : ℚ) / (U.length : ℚ) * 100
          ≤ 1 * 100 := by
            apply mul_le_mul_of_nonneg_right _ (by norm_num)
            exact div_le_one_of_le₀ hc (le_of_lt hn)
        _ = 100 := by norm_num

/-- C1 amended witness: on the concrete catalog `[a]` with a test covering
exactly `a`, the subset proviso holds and the bound 100 follows. -/
theorem coverage_percentage_amended_witness :
    (assess_quality noneOracle [unitA] [testCoversA]).coverage_percentage ≤ 100 :=
  (coverage_percentage_amended noneOracle [unitA] [testCoversA]).2.2 (by decide)

/-! ## C5 — clarity sampling and its denominator -/

/-- The clarity score as a closed formula: sum of the per-test
contributions over the first ten tests, divided by `min(len(tests), 10)`. -/
theorem assess_test_clarity_formula (oracle : TestCase → Option ℚ)
    (tests : List TestCase) :
    assess_test_clarity oracle tests =
      if tests = [] then 0
      else ((tests.take 10).map (clarityContribution oracle)).sum /
        ((min tests.length 10 : Nat) : ℚ) := by
  unfold assess_test_clarity
  by_cases h : tests = [] <;> simp [h, foldl_clarity_sum]

/-- C5 counterexample: two tests, the first without `source_code`, the
second with it, and an oracle rating every sampled test 10.  The claim
predicts an average over the sampled count, i.e. 10/1 = 10; the code
divides by `min(len(test_cases), 10) = 2` and returns 5 — the sourceless
test does enter the denominator. -/
theorem test_clarity_counterexample :
    assess_test_clarity tenOracle [testNoSource, testWithSource] = 5
  ∧ ¬ assess_test_clarity tenOracle [testNoSource, testWithSource] = 10 := by
  have h1 : clarityContribution tenOracle testNoSource = 0 := by
    simp [clarityContribution, testNoSource]
  have h2 : clarityContribution tenOracle testWithSource = 10 := by
    simp [clarityContribution, testWithSource, tenOracle]
  rw [assess_test_clarity_formula]
  simp [h1, h2]
  norm_num

/-- C5 amended: `_assess_test_clarity` samples, among the first 10 tests
of the list (not the first 10 source-carrying tests), those with a truthy
`source_code`; each sampled test contributes its oracle rating clamped to
`[0,10]`, with 5.0 substituted on parse failure or oracle error, and every
unsampled test contributes 0; the returned value is that sum divided by
`min(len(test_cases), 10)` (0.0 when there are no tests at all) — so
tests without `source_code` among the first ten do enter the denominator,
and a source-carrying test past position ten is never sampled. -/
theorem test_clarity_amended (oracle : TestCase → Option ℚ)
    (tests : List TestCase) :
    (assess_test_clarity oracle tests =
      if tests = [] then 0
      else ((tests.take 10).map (clarityContribution oracle)).sum /
        ((min tests.length 10 : Nat) : ℚ))
  ∧ (∀ t : TestCase, t.source_code.getD ("") = "" →
      clarityContribution oracle t = 0)
  ∧ (∀ t : TestCase, 0 ≤ clarityContribution oracle t ∧
      clarityContribution oracle t ≤ 10) := by
  refine ⟨assess_test_clarity_formula oracle tests, ?_, ?_⟩
  · intro t ht
    simp [clarityContribution, ht]
  · intro t
    unfold clarityContribution
    by_cases hs : t.source_code.getD ("") ≠ ""
    · rw [if_pos hs]
      cases h : oracle t with
      | none => norm_num
      | some score =>
        constructor
        · exact le_min (le_max_right score 0) (by norm_num)
        · exact min_le_right _ _
    · rw [if_neg hs]
      norm_num

/-- C5 amended witness: the contribution of a sourceless test is 0, via
the amended theorem at the concrete sourceless test. -/
theorem test_clarity_amended_witness :
    clarityContribution tenOracle testNoSource = 0 :=
  (test_clarity_amended tenOracle []).2.1 testNoSource (by decide)

/-! ## C6 — low-quality test flagging -/

/-- A test's issue list is empty exactly when none of the four flag
conditions of `_identify_low_quality_tests` holds. -/
theorem testIssues_eq_nil_iff (t : TestCase) :
    testIssues t = [] ↔
      ¬ (t.assertions = 0 ∨ 5 < t.complexity ∨ t.docstring.getD ("") = "" ∨
          (0 < t.assertions ∧ t.mocks = 0)) := by
  unfold testIssues
  by_cases h1 : t.assertions = 0 <;>
    by_cases h2 : 5 < t.complexity <;>
      by_cases h3 : t.docstring.getD ("") = "" <;>
        by_cases h4 : t.mocks = 0 <;>
          simp [h1, h2, h3, h4, Nat.pos_iff_ne_zero]

/-- C6: a test is listed in `low_quality_tests` precisely when it has zero
assertions, or complexity above 5, or a falsy docstring, or assertions
with no mocks; the listed entry concatenates all applicable reasons into
one diagnostic string.  In particular `assertions = 0` yields the reason
"no assertions", `assertions = 5, mocks = 0` yields "no mocking", and
`assertions = 5, mocks = 1, complexity = 2` with a docstring is not
flagged. -/
theorem low_quality_tests_characterization (tests : List TestCase) :
    identify_low_quality_tests tests =
      (tests.filter (fun t => decide (t.assertions = 0 ∨ 5 < t.complexity ∨
          t.docstring.getD ("") = "" ∨ (0 < t.assertions ∧ t.mocks = 0)))).map
        (fun t => t.name ++ " (" ++ String.intercalate (", ") (testIssues t) ++ ")")
  ∧ (∀ t : TestCase, t.assertions = 0 → "no assertions" ∈ testIssues t)
  ∧ (∀ t : TestCase, t.assertions = 5 → t.mocks = 0 → "no mocking" ∈ testIssues t)
  ∧ (∀ t : TestCase, t.assertions = 5 → t.mocks = 1 → t.complexity = 2 →
      t.docstring = some "x" → testIssues t = []) := by
  refine ⟨?_, ?_, ?_, ?_⟩
  · induction tests with
    | nil => simp [identify_low_quality_tests]
    | cons a l ih =>
      by_cases h : testIssues a = []
      · have hflag := (testIssues_eq_nil_iff a).mp h
        simp only [identify_low_quality_tests, List.filterMap_cons, if_pos h,
          List.filter_cons] at ih ⊢
        rw [decide_eq_false hflag]
        simpa using ih
      · have hflag : a.assertions = 0 ∨ 5 < a.complexity ∨
            a.docstring.getD ("") = "" ∨ (0 < a.assertions ∧ a.mocks = 0) := by
          by_contra hc
          exact h ((testIssues_eq_nil_iff a).mpr hc)
        simp only [identify_low_quality_tests, List.filterMap_cons, if_neg h,
          List.filter_cons] at ih ⊢
        rw [decide_eq_true hflag]
        simpa using ih
  · intro t ht
    simp [testIssues, ht]
  · intro t ht hm
    simp [testIssues, ht, hm]
  · intro t ht hm hc hd
    rw [testIssues_eq_nil_iff]
    simp [ht, hm, hc, hd]

/-- C6 witness: the three boundary examples of the claim, by the
characterisation theorem at concrete tests. -/
theorem low_quality_tests_characterization_witness :
    "no assertions" ∈ testIssues testNoSource
  ∧ "no mocking" ∈ testIssues testFiveAsserts
  ∧ testIssues testClean = [] :=
  ⟨(low_quality_tests_characterization []).2.1 testNoSource rfl,
   (low_quality_tests_characterization []).2.2.1 testFiveAsserts rfl rfl,
   (low_quality_tests_characterization []).2.2.2 testClean rfl rfl rfl rfl⟩

/-! ## C8 — judgment-response parsing -/

/-- The feedback accumulated by the judgment-parsing fold: keyword lines
never contribute (whether or not a score parses from them); every other
non-blank line not starting with `#` contributes its stripped text, in
order. -/
theorem foldl_judgeLineStep_feedback (lines : List String) :
    ∀ acc : List (String × ℚ) × List String,
      (lines.foldl judgeLineStep acc).2 =
        acc.2 ++ (lines.filter (fun line => !(isScoreCandidate line) &&
          decide (pyStrip line ≠ "") && !(pyStartsWith line ("#")))).map pyStrip := by
  induction lines with
  | nil => simp
  | cons l ls ih =>
    intro acc
    simp only [List.foldl_cons, List.filter_cons]
    by_cases h1 : isScoreCandidate l
    · have hstep : judgeLineStep acc l = (scoreLineUpdate acc.1 l, acc.2) := by
        simp [judgeLineStep, h1]
      rw [hstep, ih]
      simp [h1]
    · by_cases h2 : pyStrip l = ""
      · have hstep : judgeLineStep acc l = acc := by
          simp [judgeLineStep, h1, h2]
        rw [hstep, ih]
        simp [h1, h2]
      · by_cases h3 : pyStartsWith l ("#")
        · have hstep : judgeLineStep acc l = acc := by
            simp [judgeLineStep, h1, h2, h3]
          rw [hstep, ih]
          simp [h1, h2, h3]
        · have hstep : judgeLineStep acc l = (acc.1, acc.2 ++ [pyStrip l]) := by
            simp [judgeLineStep, h1, h2, h3]
          rw [hstep, ih]
          simp [h1, h2, h3]

/-- C8 counterexample: the response `"coverage is great"` is one non-blank
line, not starting with `#`, containing the criterion keyword `coverage`
but carrying no colon-separated numeric.  The claim says such a line
appears in the returned feedback; the code enters the score branch, the
`except: pass` swallows the parse failure, and the line is dropped
entirely — the feedback is empty (and no score is recorded, so the
overall score defaults to 5). -/
theorem parse_judgment_counterexample :
    (parse_judgment_response ("coverage is great")).feedback = []
  ∧ ¬ pyStrip ("coverage is great") ∈
      (parse_judgment_response ("coverage is great")).feedback
  ∧ (parse_judgment_response ("coverage is great")).criterion_scores = []
  ∧ (parse_judgment_response ("coverage is great")).overall_score = 5 := by
  refine ⟨by decide, by decide, by decide, by decide⟩

/-- C8 amended: a line containing one of the six criterion keywords is
consumed by the score branch and never reaches the feedback list — even
when no numeric parses after a colon, in which case it is silently
dropped; the feedback list consists exactly of the stripped non-blank,
non-`#` lines that contain no criterion keyword, in response order; and
`overall_score` is the mean of the recorded criterion scores, or 5.0 when
none were recorded. -/
theorem parse_judgment_amended (response : String) :
    (parse_judgment_response response).feedback =
      ((pySplitChar response ('\n')).filter (fun line =>
        !(isScoreCandidate line) && decide (pyStrip line ≠ "") &&
          !(pyStartsWith line ("#")))).map pyStrip
  ∧ (parse_judgment_response response).overall_score =
      (if (parse_judgment_response response).criterion_scores = [] then 5
       else (((parse_judgment_response response).criterion_scores.map Prod.snd).sum) /
         (((parse_judgment_response response).criterion_scores.length : Nat) : ℚ)) := by
  constructor
  · have h := foldl_judgeLineStep_feedback (pySplitChar response ('\n')) ([], [])
    simpa [parse_judgment_response] using h
  · rfl

/-! ## C7 — oracle failures degrade gracefully -/

/-- C7: a raising oracle invocation never propagates out of a
generate/judge step: failed generation yields the empty candidate list,
failed judgment yields the neutral error judgment, and a loop pass whose
generator always yields no candidates still processes every remaining
target, leaving the state unchanged. -/
theorem oracle_failure_graceful
    (genOracle : CodeUnit → List TestCase → Option String)
    (judgeOracle : TestCase → CodeUnit → Option String)
    (u : CodeUnit) (ts : List TestCase) (t : TestCase)
    (gen : CodeUnit → List TestCase → List TestCase)
    (judge : TestCase → CodeUnit → Judgment)
    (U : List CodeUnit) (targets : List String) (st : LoopState × Bool) :
    (genOracle u ts = none → generate_tests genOracle u ts = [])
  ∧ (judgeOracle t u = none →
      judge_test judgeOracle t u =
        { overall_score := 5, criterion_scores := [],
          feedback := ["Error in evaluation"] })
  ∧ ((∀ v l, gen v l = []) →
      targets.foldl (processTarget gen judge U) st = st) := by
  refine ⟨?_, ?_, ?_⟩
  · intro h
    simp [generate_tests, h]
  · intro h
    simp [judge_test, h]
  · intro h
    induction targets generalizing st with
    | nil => simp
    | cons a l ih =>
      simp only [List.foldl_cons]
      have hp : processTarget gen judge U st a = st := by
        unfold processTarget
        cases hf : find_code_unit U a with
        | none => simp
        | some unit => simp [h]
      rw [hp, ih]

/-- A generation oracle whose every invocation raises. -/
def noneGenOracle : CodeUnit → List TestCase → Option String := fun _ _ => none

/-- A judging oracle whose every invocation raises. -/
def noneJudgeOracle : TestCase → CodeUnit → Option String := fun _ _ => none

/-- A generator returning no candidates for any unit. -/
def emptyGen : CodeUnit → List TestCase → List TestCase := fun _ _ => []

/-- A judge rating every candidate 10. -/
def judgeTen : TestCase → CodeUnit → Judgment :=
  fun _ _ => { overall_score := 10, criterion_scores := [], feedback := [] }

/-- C7 witness: the three graceful-degradation facts at concrete inputs. -/
theorem oracle_failure_graceful_witness :
    generate_tests noneGenOracle unitA [] = []
  ∧ judge_test noneJudgeOracle testNoSource unitA =
      { overall_score := 5, criterion_scores := [],
        feedback := ["Error in evaluation"] }
  ∧ ["a", "b"].foldl (processTarget emptyGen judgeTen [unitA]) (⟨[], []⟩, false) =
      (⟨[], []⟩, false) :=
  ⟨(oracle_failure_graceful noneGenOracle noneJudgeOracle unitA [] testNoSource
      emptyGen judgeTen [unitA] ["a", "b"] (⟨[], []⟩, false)).1 rfl,
   (oracle_failure_graceful noneGenOracle noneJudgeOracle unitA [] testNoSource
      emptyGen judgeTen [unitA] ["a", "b"] (⟨[], []⟩, false)).2.1 rfl,
   (oracle_failure_graceful noneGenOracle noneJudgeOracle unitA [] testNoSource
      emptyGen judgeTen [unitA] ["a", "b"] (⟨[], []⟩, false)).2.2 (fun _ _ => rfl)⟩

/-! ## C3 — the 7.0 acceptance gate -/

/-- C3: a judged candidate is accepted — appended to the working test set
and the `generated_tests` accumulator with the improvement flag set —
exactly when its judgment's `overall_score` is at least 7.0, and is left
unprocessed (state unchanged) exactly when the score is strictly below
7.0. -/
theorem accept_iff_overall_score_ge_7 (judge : TestCase → CodeUnit → Judgment)
    (unit : CodeUnit) (acc : LoopState × Bool) (test : TestCase) :
    (judgeStep judge unit acc test =
        (⟨acc.1.test_cases ++ [test], acc.1.generated_tests ++ [test]⟩, true) ↔
      7 ≤ (judge test unit).overall_score)
  ∧ (judgeStep judge unit acc test = acc ↔
      (judge test unit).overall_score < 7) := by
  by_cases h : 7 ≤ (judge test unit).overall_score
  · have hstep : judgeStep judge unit acc test =
        (⟨acc.1.test_cases ++ [test], acc.1.generated_tests ++ [test]⟩, true) := by
      simp [judgeStep, h]
    have hne : (⟨acc.1.test_cases ++ [test], acc.1.generated_tests ++ [test]⟩,
        true) ≠ acc := by
      intro he
      have h2 := congrArg (fun p => p.1.test_cases.length) he
      simp at h2
    refine ⟨⟨fun _ => h, fun _ => hstep⟩, ?_⟩
    rw [hstep]
    exact ⟨fun he => absurd he hne, fun hlt => absurd h (not_le.mpr hlt)⟩
  · have hlt : (judge test unit).overall_score < 7 := not_le.mp h
    have hstep : judgeStep judge unit acc test = acc := by
      simp [judgeStep, h]
    have hne : acc ≠ (⟨acc.1.test_cases ++ [test],
        acc.1.generated_tests ++ [test]⟩, true) := by
      intro he
      have h2 := congrArg (fun p => p.1.test_cases.length) he
      simp at h2
    constructor
    · rw [hstep]
      exact ⟨fun he => absurd he hne, fun h7 => absurd h7 h⟩
    · rw [hstep]
      exact ⟨fun _ => hlt, fun _ => rfl⟩

/-- A judge rating every candidate exactly 7. -/
def judgeSeven : TestCase → CodeUnit → Judgment :=
  fun _ _ => { overall_score := 7, criterion_scores := [], feedback := [] }

/-- A judge rating every candidate 6, strictly below the gate. -/
def judgeSix : TestCase → CodeUnit → Judgment :=
  fun _ _ => { overall_score := 6, criterion_scores := [], feedback := [] }

/-- C3 witness: a candidate scored exactly 7.0 is accepted and one scored
below 7.0 leaves the state unchanged, at concrete inputs. -/
theorem accept_iff_overall_score_ge_7_witness :
    judgeStep judgeSeven unitA (⟨[], []⟩, false) testWithSource =
      (⟨[testWithSource], [testWithSource]⟩, true)
  ∧ judgeStep judgeSix unitA (⟨[], []⟩, false) testWithSource =
      (⟨[], []⟩, false) :=
  ⟨(accept_iff_overall_score_ge_7 judgeSeven unitA (⟨[], []⟩, false)
      testWithSource).1.mpr (by norm_num [judgeSeven]),
   (accept_iff_overall_score_ge_7 judgeSix unitA (⟨[], []⟩, false)
      testWithSource).2.mpr (by norm_num [judgeSix])⟩

/-! ## C4 — loop termination and budget -/

/-- C4: the improvement loop runs at most `max_iterations` iterations; it
stops immediately (state unchanged, zero iterations processed) when the
target list is empty; when the first processed iteration accepts no
candidate the loop stops right after it; and when every reached iteration
has a non-empty target list and accepts at least one candidate, the loop
runs exactly `max_iterations` iterations. -/
theorem improve_loop_termination
    (gen : CodeUnit → List TestCase → List TestCase)
    (judge : TestCase → CodeUnit → Judgment)
    (U : List CodeUnit) (max : Nat) (s : LoopState) :
    (improve_tests_iteratively gen judge U max s).2 ≤ max
  ∧ (targetList U s.test_cases = [] →
      improve_tests_iteratively gen judge U max s = (s, 0))
  ∧ (1 ≤ max → targetList U s.test_cases ≠ [] →
      (iterStep gen judge U s).2 = false →
      improve_tests_iteratively gen judge U max s =
        ((iterStep gen judge U s).1, 1))
  ∧ ((∀ k, k < max →
        targetList U (iterates gen judge U k s).test_cases ≠ [] ∧
        (iterStep gen judge U (iterates gen judge U k s)).2 = true) →
      (improve_tests_iteratively gen judge U max s).2 = max) := by
  refine ⟨?_, ?_, ?_, ?_⟩
  · induction max generalizing s with
    | zero => simp [improve_tests_iteratively]
    | succ n ih =>
      simp only [improve_tests_iteratively]
      split
      · simp
      · split
        · simpa using Nat.succ_le_succ (ih _)
        · simp
  · intro h
    cases max with
    | zero => simp [improve_tests_iteratively]
    | succ n => simp [improve_tests_iteratively, h]
  · intro hmax hne hflag
    cases max with
    | zero => exact absurd hmax (by omega)
    | succ n =>
      simp only [improve_tests_iteratively]
      rw [if_neg hne, if_neg (by simp [hflag])]
  · induction max generalizing s with
    | zero =>
      intro _
      simp [improve_tests_iteratively]
    | succ n ih =>
      intro h
      have h0 := h 0 (Nat.succ_pos n)
      simp only [iterates] at h0
      have hrec := ih (iterStep gen judge U s).1 (fun k hk => by
        have hk1 := h (k + 1) (Nat.succ_lt_succ hk)
        simpa only [iterates] using hk1)
      simp only [improve_tests_iteratively]
      rw [if_neg h0.1, if_pos h0.2]
      simp [hrec]

/-- A generator stub that always proposes the same coverage-free
candidate, keeping the unit `a` perpetually uncovered. -/
def genStubA : CodeUnit → List TestCase → List TestCase :=
  fun _ _ => [testNoSource]

/-- The target list over the one-unit catalog `[a]` is `["a"]` whenever
the working tests cover nothing. -/
theorem targetList_unitA (T : List TestCase) (h : coveredUnits T = ∅) :
    targetList [unitA] T = ["a"] := by
  unfold targetList identify_uncovered_units identify_low_quality_units
  rw [h]
  simp [unitNames, unitA]

/-- The target list is empty over an empty catalog with no tests. -/
theorem targetList_nil : targetList [] [] = [] := by
  unfold targetList identify_uncovered_units identify_low_quality_units
  simp [unitNames, coveredUnits]

/-- With the accept-everything judge, one iteration over the one-unit
catalog appends the stub candidate and reports an improvement. -/
theorem iterStep_genStubA_judgeTen (s : LoopState)
    (h : coveredUnits s.test_cases = ∅) :
    iterStep genStubA judgeTen [unitA] s =
      (⟨s.test_cases ++ [testNoSource], s.generated_tests ++ [testNoSource]⟩,
        true) := by
  unfold iterStep
  rw [targetList_unitA s.test_cases h]
  have hfind : find_code_unit [unitA] ("a") = some unitA := rfl
  have h7 : (7 : ℚ) ≤ (judgeTen testNoSource unitA).overall_score := by
    norm_num [judgeTen]
  simp [processTarget, hfind, genStubA, judgeStep, h7]

/-- With the reject-everything judge, one iteration over the one-unit
catalog changes nothing and reports no improvement. -/
theorem iterStep_genStubA_judgeSix :
    iterStep genStubA judgeSix [unitA] ⟨[], []⟩ = (⟨[], []⟩, false) := by
  unfold iterStep
  rw [targetList_unitA ([] : List TestCase) rfl]
  have hfind : find_code_unit [unitA] ("a") = some unitA := rfl
  have h6 : ¬ (7 : ℚ) ≤ (judgeSix testNoSource unitA).overall_score := by
    norm_num [judgeSix]
  simp [processTarget, hfind, genStubA, judgeStep, h6]

/-- The accept-everything run keeps targets non-empty and keeps accepting
at every iteration below the budget of 2. -/
theorem genStubA_always_accepts : ∀ k, k < 2 →
    targetList [unitA]
      (iterates genStubA judgeTen [unitA] k ⟨[], []⟩).test_cases ≠ [] ∧
    (iterStep genStubA judgeTen [unitA]
      (iterates genStubA judgeTen [unitA] k ⟨[], []⟩)).2 = true := by
  have hc0 : coveredUnits ([] : List TestCase) = ∅ := rfl
  have hc1 : coveredUnits [testNoSource] = ∅ := by
    simp [coveredUnits, testNoSource]
  have hs1 : iterates genStubA judgeTen [unitA] 1 ⟨[], []⟩ =
      ⟨[testNoSource], [testNoSource]⟩ := by
    show (iterStep genStubA judgeTen [unitA] ⟨[], []⟩).1 = _
    rw [iterStep_genStubA_judgeTen ⟨[], []⟩ hc0]
    simp
  intro k hk
  match k with
  | 0 =>
    refine ⟨?_, ?_⟩
    · show targetList [unitA] (⟨[], []⟩ : LoopState).test_cases ≠ []
      rw [targetList_unitA ([] : List TestCase) hc0]
      simp
    · show (iterStep genStubA judgeTen [unitA] ⟨[], []⟩).2 = true
      rw [iterStep_genStubA_judgeTen ⟨[], []⟩ hc0]
  | 1 =>
    rw [hs1]
    refine ⟨?_, ?_⟩
    · rw [targetList_unitA [testNoSource] hc1]
      simp
    · rw [iterStep_genStubA_judgeTen ⟨[testNoSource], [testNoSource]⟩ hc1]

/-- C4 witness: with the always-accepting judge and the perpetually
uncovered unit the loop runs exactly its budget of 2; with no units the
target list is empty and the loop stops immediately; with the
always-rejecting judge the loop stops after its first iteration
regardless of a budget of 3. -/
theorem improve_loop_termination_witness :
    (improve_tests_iteratively genStubA judgeTen [unitA] 2 ⟨[], []⟩).2 = 2
  ∧ improve_tests_iteratively genStubA judgeTen [] 3 ⟨[], []⟩ = (⟨[], []⟩, 0)
  ∧ improve_tests_iteratively genStubA judgeSix [unitA] 3 ⟨[], []⟩ =
      ((iterStep genStubA judgeSix [unitA] ⟨[], []⟩).1, 1) :=
  ⟨(improve_loop_termination genStubA judgeTen [unitA] 2 ⟨[], []⟩).2.2.2
      genStubA_always_accepts,
   (improve_loop_termination genStubA judgeTen [] 3 ⟨[], []⟩).2.1 targetList_nil,
   (improve_loop_termination genStubA judgeSix [unitA] 3 ⟨[], []⟩).2.2.1
     (by norm_num)
     (by rw [targetList_unitA ([] : List TestCase) rfl]; simp)
     (by rw [iterStep_genStubA_judgeSix])⟩

/-! ## C9 — adding a duplicate test -/

/-- Equality as implemented by `TestCase.__eq__` (models.py lines 70-73):
two tests are equal exactly when their (name, file path, start line)
triples match. -/
def tripleEq (a b : TestCase) : Prop :=
  a.name = b.name ∧ a.file_path = b.file_path ∧ a.line_start = b.line_start

instance (a b : TestCase) : Decidable (tripleEq a b) :=
  inferInstanceAs (Decidable (_ ∧ _ ∧ _))

/-- Membership of the working list up to `TestCase.__eq__` — the notion
of set membership the claim's "natural set semantics" refers to. -/
def memTriple (l : List TestCase) (t : TestCase) : Prop :=
  ∃ v ∈ l, tripleEq v t

instance (l : List TestCase) (t : TestCase) : Decidable (memTriple l t) :=
  inferInstanceAs (Decidable (∃ v ∈ l, tripleEq v t))

/-- A test object in the working set. -/
def dupA : TestCase :=
  { name := "test_x", type := TestType.unit, file_path := "t.py",
    line_start := 1, line_end := 3, assertions := 1 }

/-- A distinct test object with the same identity triple as `dupA`. -/
def dupB : TestCase :=
  { name := "test_x", type := TestType.unit, file_path := "t.py",
    line_start := 1, line_end := 9, assertions := 2 }

/-- C9 counterexample: the working set holds `dupA` and the loop appends
`dupB`, whose identity triple equals `dupA`'s.  The working collection is
a Python list, not a keyed map: the duplicate is retained, and
`total_tests` at the next assessment changes from 1 to 2 — not "the same
as before the add" as the claim states. -/
theorem add_duplicate_counterexample :
    tripleEq dupA dupB
  ∧ (assess_quality noneOracle [] [dupA]).total_tests = 1
  ∧ (assess_quality noneOracle [] ([dupA] ++ [dupB])).total_tests = 2 := by
  refine ⟨by decide, rfl, rfl⟩

/-- C9 amended: appending a test whose identity triple already occurs in
the working list leaves membership-up-to-`__eq__` unchanged for every
test, but the duplicate is nevertheless retained in the list, so
`total_tests` at the next assessment grows by exactly one. -/
theorem add_duplicate_amended (l : List TestCase) (t : TestCase)
    (hmem : memTriple l t) :
    (∀ u : TestCase, memTriple (l ++ [t]) u ↔ memTriple l u)
  ∧ (∀ (o : TestCase → Option ℚ) (U : List CodeUnit),
      (assess_quality o U (l ++ [t])).total_tests =
        (assess_quality o U l).total_tests + 1) := by
  constructor
  · intro u
    constructor
    · rintro ⟨v, hv, hvu⟩
      rcases List.mem_append.mp hv with hv | hv
      · exact ⟨v, hv, hvu⟩
      · have hvt : v = t := by simpa using hv
        subst hvt
        obtain ⟨w, hw, hwt⟩ := hmem
        exact ⟨w, hw, hwt.1.trans hvu.1, hwt.2.1.trans hvu.2.1,
          hwt.2.2.trans hvu.2.2⟩
    · rintro ⟨v, hv, hvu⟩
      exact ⟨v, List.mem_append.mpr (Or.inl hv), hvu⟩
  · intro o U
    simp [assess_quality]

/-- C9 amended witness: at the concrete duplicate pair, membership is
preserved while `total_tests` increments. -/
theorem add_duplicate_amended_witness :
    (memTriple ([dupA] ++ [dupB]) dupB ↔ memTriple [dupA] dupB)
  ∧ (assess_quality noneOracle [] ([dupA] ++ [dupB])).total_tests =
      (assess_quality noneOracle [] [dupA]).total_tests + 1 :=
  ⟨(add_duplicate_amended [dupA] dupB (by decide)).1 dupB,
   (add_duplicate_amended [dupA] dupB (by decide)).2 noneOracle []⟩

/-! ## C10 — unterminated code fence extraction -/

/-- C10: when the response contains an opening fence marker
(`"```python"`, or `"```"` with no python fence) and no closing `"```"`
after it, `_extract_test_code` returns the stripped slice running from
just past the opening marker to one character before the end of the
response — Python's `find` returns `-1` and `response[start:-1]` drops the
final character — rather than falling back to the raw trimmed response. -/
theorem extract_unclosed_fence (response : String) (p : Nat) :
    (findFrom response.data ("```python".data) 0 = some p →
      findFrom response.data ("```".data) (p + 9) = none →
      extract_test_code response =
        pyStrip (String.mk
          ((response.data.take (response.data.length - 1)).drop (p + 9))))
  ∧ (findFrom response.data ("```python".data) 0 = none →
      findFrom response.data ("```".data) 0 = some p →
      findFrom response.data ("```".data) (p + 3) = none →
      extract_test_code response =
        pyStrip (String.mk
          ((response.data.take (response.data.length - 1)).drop (p + 3)))) := by
  constructor
  · intro h1 h2
    simp only [extract_test_code, h1, h2]
  · intro h1 h2 h3
    simp only [extract_test_code, h1, h2, h3]

/-- C10 witness: on the concrete response with an unterminated python
fence, the extraction drops the final character of the remainder. -/
theorem extract_unclosed_fence_witness :
    extract_test_code ("```python\nabc") =
      pyStrip (String.mk ((("```python\nabc").data.take
        (("```python\nabc").data.length - 1)).drop (0 + 9)))
  ∧ extract_test_code ("```python\nabc") = "ab" := by
  have h := (extract_unclosed_fence ("```python\nabc") 0).1 (by decide) (by decide)
  exact ⟨h, by rw [h]; decide⟩
